import Mathlib

/-!
Shallow embedding of the d2r2/go-i2c library (files `i2c.go` and its
sibling revision with identity fields), together with proofs about the
SMBus-over-I2C register-access operations.

Modelling conventions:
* Go `byte` values are `Nat`s below 256; where the Go code performs a
  `byte(...)` conversion the embedding applies `% 256`.
* Go `uint16` values are `Nat`s, with every arithmetic step reduced
  `% 65536` exactly where the 16-bit operation can wrap.  Bit
  operations on 16-bit values are written arithmetically:
  `w & 0xFF = w % 256`, `(w & 0xFF00) >> 8 = w % 65536 / 256`,
  `w << 8 = w * 256 % 65536`, logical `w >> 8 = w / 256`.
* Go `int16` values are modelled by their 16-bit two's-complement bit
  pattern (a `Nat` below 65536); `toS16` recovers the mathematical
  value.  Go's `>>` on a negative `int16` is an arithmetic shift, and
  is modelled by `sar16by8` below.
* The open file handle (`v.rc`) is replaced by a scripted mock device:
  each register operation performs at most one raw write and one raw
  read, so a `Device` carries one scripted response for each.  Every
  transport call is recorded in an event trace so that theorems can
  speak about the exact wire bytes emitted and about which calls were
  issued.
-/

namespace GoI2C

/-- An abstract OS / transport error value (Go `error`). -/
inductive GoError
  | ioError (code : Nat)
  deriving DecidableEq, Repr

/-- One observable transport call: a raw write of the given bytes, or a
raw read into a buffer of the given length. -/
inductive Ev
  | wr (bytes : List Nat)
  | rd (bufLen : Nat)
  deriving DecidableEq, Repr

/-- Scripted mock for the open file handle `v.rc`: the response to the
single raw write and the single raw read a register operation may
issue.  `readData` are the bytes the device supplies (they land in the
prefix of the caller's zero-initialised buffer). -/
structure Device where
  writeResp : Except GoError Nat
  readData  : List Nat
  readErr   : Option GoError
  deriving Repr

/-- Result of `rc.Read(buf)` on a zero-initialised buffer of length
`n`: the device's bytes (masked to byte range, as a Go `[]byte` only
holds values below 256) fill the buffer prefix, the rest stays zero. -/
def fillBuf (n : Nat) (d : List Nat) : List Nat :=
  (d.map (· % 256)).take n ++ List.replicate (n - d.length) 0

/-- `func (v *I2C) WriteBytes(buf []byte) (int, error)` — logs and
forwards to `v.rc.Write(buf)`.  Returns the scripted response and
records the wire bytes. -/
def WriteBytes (dev : Device) (buf : List Nat) : Except GoError Nat × List Ev :=
  (dev.writeResp, [Ev.wr buf])

/-- `func (v *I2C) ReadBytes(buf []byte) (int, error)` — forwards to
`v.rc.Read(buf)`.  On success the count is the number of bytes the
device supplied (never more than the buffer length); on error the
callers below discard buffer and count. -/
def ReadBytes (dev : Device) (n : Nat) :
    (List Nat × Nat × Option GoError) × List Ev :=
  match dev.readErr with
  | some e => ((List.replicate n 0, 0, some e), [Ev.rd n])
  | none   => ((fillBuf n dev.readData, min dev.readData.length n, none), [Ev.rd n])

/-- `ReadRegBytes(reg byte, n int) ([]byte, int, error)`:
write `[reg]`; on error return `(nil, 0, err)`; else read `n` bytes;
on error return `(nil, 0, err)`; else return `(buf, c, nil)`. -/
def ReadRegBytes (dev : Device) (reg n : Nat) :
    (Option (List Nat) × Nat × Option GoError) × List Ev :=
  match WriteBytes dev [reg % 256] with
  | (.error e, t1) => ((none, 0, some e), t1)
  | (.ok _, t1) =>
    match ReadBytes dev n with
    | ((_, _, some e), t2) => ((none, 0, some e), t1 ++ t2)
    | ((buf, c, none), t2) => ((some buf, c, none), t1 ++ t2)

/-- `ReadRegU8(reg byte) (byte, error)`:
write `[reg]`; read 1 byte; return `buf[0]`. -/
def ReadRegU8 (dev : Device) (reg : Nat) : (Nat × Option GoError) × List Ev :=
  match WriteBytes dev [reg % 256] with
  | (.error e, t1) => ((0, some e), t1)
  | (.ok _, t1) =>
    match ReadBytes dev 1 with
    | ((_, _, some e), t2) => ((0, some e), t1 ++ t2)
    | ((buf, _, none), t2) => ((buf.getD 0 0, none), t1 ++ t2)

/-- `WriteRegU8(reg byte, value byte) error`: one write of `[reg, value]`. -/
def WriteRegU8 (dev : Device) (reg value : Nat) : Option GoError × List Ev :=
  match WriteBytes dev [reg % 256, value % 256] with
  | (.error e, t) => (some e, t)
  | (.ok _, t) => (none, t)

/-- `ReadRegU16BE(reg byte) (uint16, error)`:
write `[reg]`; read 2 bytes; `w := uint16(buf[0])<<8 + uint16(buf[1])`. -/
def ReadRegU16BE (dev : Device) (reg : Nat) : (Nat × Option GoError) × List Ev :=
  match WriteBytes dev [reg % 256] with
  | (.error e, t1) => ((0, some e), t1)
  | (.ok _, t1) =>
    match ReadBytes dev 2 with
    | ((_, _, some e), t2) => ((0, some e), t1 ++ t2)
    | ((buf, _, none), t2) =>
        (((buf.getD 0 0 * 256 + buf.getD 1 0) % 65536, none), t1 ++ t2)

/-- `ReadRegU16LE(reg byte) (uint16, error)`: call `ReadRegU16BE`, then
exchange bytes: `w = (w&0xFF)<<8 + w>>8` on `uint16` (logical shift). -/
def ReadRegU16LE (dev : Device) (reg : Nat) : (Nat × Option GoError) × List Ev :=
  match ReadRegU16BE dev reg with
  | ((_, some e), t) => ((0, some e), t)
  | ((w, none), t) => (((w % 256 * 256 + w / 256) % 65536, none), t)

/-- `ReadRegS16BE(reg byte) (int16, error)`:
write `[reg]`; read 2 bytes; `w := int16(buf[0])<<8 + int16(buf[1])`.
At the bit-pattern level the `int16` shift and addition wrap exactly
like the unsigned ones, so the pattern is `(buf[0]*256 + buf[1]) % 65536`. -/
def ReadRegS16BE (dev : Device) (reg : Nat) : (Nat × Option GoError) × List Ev :=
  match WriteBytes dev [reg % 256] with
  | (.error e, t1) => ((0, some e), t1)
  | (.ok _, t1) =>
    match ReadBytes dev 2 with
    | ((_, _, some e), t2) => ((0, some e), t1 ++ t2)
    | ((buf, _, none), t2) =>
        (((buf.getD 0 0 * 256 + buf.getD 1 0) % 65536, none), t1 ++ t2)

/-- Go `w >> 8` on an `int16` with bit pattern `w` is an ARITHMETIC
shift: the sign bit is replicated.  On patterns below 32768 it is
`w / 256`; on patterns with the sign bit set the result's high byte
becomes `0xFF`, i.e. the pattern is `w / 256 + 0xFF00`. -/
def sar16by8 (w : Nat) : Nat :=
  if w % 65536 < 32768 then w % 65536 / 256 else w % 65536 / 256 + 65280

/-- `ReadRegS16LE(reg byte) (int16, error)`: call `ReadRegS16BE`, then
`w = (w&0xFF)<<8 + w>>8` on `int16` — note `>>` here is the arithmetic
shift `sar16by8`, unlike the unsigned variant. -/
def ReadRegS16LE (dev : Device) (reg : Nat) : (Nat × Option GoError) × List Ev :=
  match ReadRegS16BE dev reg with
  | ((_, some e), t) => ((0, some e), t)
  | ((w, none), t) => (((w % 256 * 256 + sar16by8 w) % 65536, none), t)

/-- `WriteRegU16BE(reg byte, value uint16) error`: one write of
`[reg, byte((value & 0xFF00) >> 8), byte(value & 0xFF)]`. -/
def WriteRegU16BE (dev : Device) (reg value : Nat) : Option GoError × List Ev :=
  match WriteBytes dev [reg % 256, value % 65536 / 256, value % 256] with
  | (.error e, t) => (some e, t)
  | (.ok _, t) => (none, t)

/-- `WriteRegU16LE(reg byte, value uint16) error`:
`w := (value*0xFF00)>>8 + value<<8` — the code MULTIPLIES by `0xFF00`
(it does not mask with `&`), all in wrapping `uint16` arithmetic —
then delegates to `WriteRegU16BE(reg, w)`. -/
def WriteRegU16LE (dev : Device) (reg value : Nat) : Option GoError × List Ev :=
  WriteRegU16BE dev reg ((value * 65280 % 65536 / 256 + value * 256 % 65536) % 65536)

/-- `WriteRegS16BE(reg byte, value int16) error`: one write of
`[reg, byte((uint16(value) & 0xFF00) >> 8), byte(value & 0xFF)]`;
with `value` given as its bit pattern these bytes are
`value / 256` and `value % 256`. -/
def WriteRegS16BE (dev : Device) (reg value : Nat) : Option GoError × List Ev :=
  match WriteBytes dev [reg % 256, value % 65536 / 256, value % 256] with
  | (.error e, t) => (some e, t)
  | (.ok _, t) => (none, t)

/-- `WriteRegS16LE(reg byte, value int16) error`:
`w := int16((uint16(value)*0xFF00)>>8) + value<<8` — again a
MULTIPLICATION by `0xFF00` in wrapping 16-bit arithmetic (the shift on
the `uint16` intermediate is logical, the final `+` and `<<` wrap) —
then delegates to `WriteRegS16BE(reg, w)`. -/
def WriteRegS16LE (dev : Device) (reg value : Nat) : Option GoError × List Ev :=
  WriteRegS16BE dev reg ((value * 65280 % 65536 / 256 + value * 256 % 65536) % 65536)

/-- Mathematical value of an `int16` bit pattern. -/
def toS16 (w : Nat) : Int :=
  if w % 65536 < 32768 then (w % 65536 : Int) else (w % 65536 : Int) - 65536

/-- Bit pattern of a mathematical value in `[-32768, 32767]`. -/
def toPat16 (v : Int) : Nat := (v % 65536).toNat

/-- The intended unsigned 16-bit byte swap, as the spec words it:
low byte becomes high byte and conversely. -/
def swapU16 (w : Nat) : Nat := w % 256 * 256 + w % 65536 / 256

/-! ### The connection object and its open operation

From the revision carrying identity fields: `type I2C struct { addr
uint8; bus int; rc *os.File }` with `NewI2C`, `GetBus`, `GetAddr`.
The OS interaction of `NewI2C` (one `os.OpenFile`, one `ioctl`) is
modelled by a scripted environment plus an event trace. -/

/-- `const I2C_SLAVE = 0x0703` (the non-cgo fallback value, identical
to the Linux header value on the supported targets). -/
def I2C_SLAVE : Nat := 0x0703

/-- `I2C` connection: identity fields `addr` (uint8) and `bus` (int),
and the open file handle `rc` (modelled by its descriptor number). -/
structure I2C where
  addr : Nat
  bus  : Nat
  rc   : Nat
  deriving DecidableEq, Repr

/-- One observable OS call made by `NewI2C`: opening a device node
(`flagRDWR` records that the mode is `os.O_RDWR`, `perm` the 0600
permission bits), or an `ioctl(fd, cmd, arg)`. -/
inductive OsEv
  | openEv (path : String) (flagRDWR : Bool) (perm : Nat)
  | ioctlEv (fd cmd arg : Nat)
  deriving DecidableEq, Repr

/-- Scripted OS behaviour for the single `os.OpenFile` call (the file
descriptor on success) and the single `ioctl` call of `NewI2C`. -/
structure OSEnv where
  openRes  : Except GoError Nat
  ioctlErr : Option GoError

/-- `func NewI2C(addr uint8, bus int) (*I2C, error)`:
open `fmt.Sprintf("/dev/i2c-%d", bus)` with `os.O_RDWR, 0600`; on
error return `(nil, err)`; else `ioctl(f.Fd(), I2C_SLAVE,
uintptr(addr))`; on error return `(nil, err)`; else return
`&I2C{rc: f, bus: bus, addr: addr}`. -/
def NewI2C (env : OSEnv) (addr bus : Nat) :
    (Option I2C × Option GoError) × List OsEv :=
  let path := "/dev/i2c-" ++ toString bus
  match env.openRes with
  | .error e => ((none, some e), [OsEv.openEv path true 384])
  | .ok fd =>
    match env.ioctlErr with
    | some e => ((none, some e),
        [OsEv.openEv path true 384, OsEv.ioctlEv fd I2C_SLAVE addr])
    | none => ((some ⟨addr, bus, fd⟩, none),
        [OsEv.openEv path true 384, OsEv.ioctlEv fd I2C_SLAVE addr])

/-- `func (v *I2C) GetBus() int { return v.bus }` -/
def GetBus (v : I2C) : Nat := v.bus

/-- `func (v *I2C) GetAddr() uint8 { return v.addr }` -/
def GetAddr (v : I2C) : Nat := v.addr

/-- One library call a client can make on an open connection. -/
inductive Op
  | writeBytes (buf : List Nat)
  | readBytes (n : Nat)
  | readRegBytes (reg n : Nat)
  | readRegU8 (reg : Nat)
  | writeRegU8 (reg v : Nat)
  | readRegU16BE (reg : Nat)
  | readRegU16LE (reg : Nat)
  | readRegS16BE (reg : Nat)
  | readRegS16LE (reg : Nat)
  | writeRegU16BE (reg v : Nat)
  | writeRegU16LE (reg v : Nat)
  | writeRegS16BE (reg v : Nat)
  | writeRegS16LE (reg v : Nat)

/-- Effect of one library call on the connection record.  Every method
body in the source reads `v.rc` (here: the scripted device standing in
for the handle) and assigns none of the struct fields, so the record
passes through unchanged in every case. -/
def applyOp (c : I2C) (dev : Device) : Op → I2C
  | .writeBytes buf => let _ := WriteBytes dev buf; c
  | .readBytes n => let _ := ReadBytes dev n; c
  | .readRegBytes reg n => let _ := ReadRegBytes dev reg n; c
  | .readRegU8 reg => let _ := ReadRegU8 dev reg; c
  | .writeRegU8 reg v => let _ := WriteRegU8 dev reg v; c
  | .readRegU16BE reg => let _ := ReadRegU16BE dev reg; c
  | .readRegU16LE reg => let _ := ReadRegU16LE dev reg; c
  | .readRegS16BE reg => let _ := ReadRegS16BE dev reg; c
  | .readRegS16LE reg => let _ := ReadRegS16LE dev reg; c
  | .writeRegU16BE reg v => let _ := WriteRegU16BE dev reg v; c
  | .writeRegU16LE reg v => let _ := WriteRegU16LE dev reg v; c
  | .writeRegS16BE reg v => let _ := WriteRegS16BE dev reg v; c
  | .writeRegS16LE reg v => let _ := WriteRegS16LE dev reg v; c

/-- Run a whole client session: each step supplies the device's
scripted responses for that call. -/
def runOps (c : I2C) : List (Device × Op) → I2C
  | [] => c
  | (d, op) :: rest => runOps (applyOp c d op) rest

/-! ### Theorems about the register operations -/

/-- C1: the claim says `WriteRegU16LE(reg, v)` delegates to the BE
write on the byte swap of `v`, so the wire bytes are
`[reg, lowByte v, highByte v]`.  The code computes
`(value*0xFF00)>>8` — a wrapping MULTIPLICATION, not the mask
`value&0xFF00` — so at `reg = 0x00`, `v = 0x0102` both LE writes emit
`[0x00, 0x02, 0xFE]` while the claim requires `[0x00, 0x02, 0x01]`:
the third wire byte is not the high byte of `v`. -/
theorem writeReg16LE_wrong_wire_bytes :
    (WriteRegU16LE ⟨Except.ok 3, [], none⟩ 0 0x0102).2 = [Ev.wr [0x00, 0x02, 0xFE]] ∧
    (WriteRegS16LE ⟨Except.ok 3, [], none⟩ 0 0x0102).2 = [Ev.wr [0x00, 0x02, 0xFE]] ∧
    [Ev.wr [(0x00 : Nat), 0x02, 0xFE]] ≠ [Ev.wr [0x00, 0x02, 0x01]] := by
  decide

/-- C2: the claim says `ReadRegS16LE` returns the signed value whose
high byte is the second wire byte and whose low byte is the first.  On
wire bytes `[0x80, 0x00]` the BE pattern is `0x8000`; the byte swap
the claim requires is `0x0080 = +128`, but the code's
`w>>8` on `int16` is an arithmetic shift that drags in the sign bit,
so the code returns the pattern `0xFF80 = -128`. -/
theorem readRegS16LE_not_byteswap :
    (ReadRegS16BE ⟨Except.ok 1, [0x80, 0x00], none⟩ 0x10).1 = (0x8000, none) ∧
    toS16 (swapU16 0x8000) = 128 ∧
    (ReadRegS16LE ⟨Except.ok 1, [0x80, 0x00], none⟩ 0x10).1 = (0xFF80, none) ∧
    toS16 0xFF80 = -128 := by
  refine ⟨rfl, by decide, rfl, by decide⟩

/-- C4: when the register-select write fails with error `e`, every
two-phase register read returns `e` unchanged with the zero / nil
result, and its transport trace consists of the single failed write —
no read call is issued, whatever the device would have answered. -/
theorem read_ops_short_circuit_on_write_error (e : GoError) (d : List Nat)
    (rerr : Option GoError) (reg n : Nat) :
    ReadRegBytes ⟨Except.error e, d, rerr⟩ reg n
      = ((none, 0, some e), [Ev.wr [reg % 256]]) ∧
    ReadRegU8 ⟨Except.error e, d, rerr⟩ reg = ((0, some e), [Ev.wr [reg % 256]]) ∧
    ReadRegU16BE ⟨Except.error e, d, rerr⟩ reg = ((0, some e), [Ev.wr [reg % 256]]) ∧
    ReadRegS16BE ⟨Except.error e, d, rerr⟩ reg = ((0, some e), [Ev.wr [reg % 256]]) ∧
    ReadRegU16LE ⟨Except.error e, d, rerr⟩ reg = ((0, some e), [Ev.wr [reg % 256]]) ∧
    ReadRegS16LE ⟨Except.error e, d, rerr⟩ reg = ((0, some e), [Ev.wr [reg % 256]]) := by
  exact ⟨rfl, rfl, rfl, rfl, rfl, rfl⟩

/-- C3: on wire bytes `[b0, b1]`, `ReadRegU16BE` yields `b0*256 + b1`,
`ReadRegU16LE` yields exactly its byte swap `b1*256 + b0` (the same
transfer, value-level swap), and the unsigned 16-bit byte swap is an
involution. -/
theorem readRegU16LE_is_byteswap_of_BE (reg b0 b1 : Nat)
    (hb0 : b0 < 256) (hb1 : b1 < 256) :
    (ReadRegU16BE ⟨Except.ok 1, [b0, b1], none⟩ reg).1 = (b0 * 256 + b1, none) ∧
    (ReadRegU16LE ⟨Except.ok 1, [b0, b1], none⟩ reg).1 = (b1 * 256 + b0, none) ∧
    (ReadRegU16LE ⟨Except.ok 1, [b0, b1], none⟩ reg).1.1
      = swapU16 ((ReadRegU16BE ⟨Except.ok 1, [b0, b1], none⟩ reg).1.1) ∧
    (∀ v : Nat, v < 65536 → swapU16 (swapU16 v) = v) := by
  have hBE : (ReadRegU16BE ⟨Except.ok 1, [b0, b1], none⟩ reg).1
      = (b0 * 256 + b1, none) := by
    simp [ReadRegU16BE, WriteBytes, ReadBytes, fillBuf]
    omega
  have hLE : (ReadRegU16LE ⟨Except.ok 1, [b0, b1], none⟩ reg).1
      = (b1 * 256 + b0, none) := by
    have hw : (b0 % 256 * 256 + b1 % 256) % 65536 = b0 * 256 + b1 := by omega
    have hA : (b0 * 256 + b1) % 256 = b1 := by omega
    have hB : (b0 * 256 + b1) / 256 = b0 := by omega
    simp [ReadRegU16LE, ReadRegU16BE, WriteBytes, ReadBytes, fillBuf, hw, hA, hB]
    omega
  refine ⟨hBE, hLE, ?_, ?_⟩
  · have e1 : (ReadRegU16LE ⟨Except.ok 1, [b0, b1], none⟩ reg).1.1 = b1 * 256 + b0 :=
      congrArg Prod.fst hLE
    have e2 : (ReadRegU16BE ⟨Except.ok 1, [b0, b1], none⟩ reg).1.1 = b0 * 256 + b1 :=
      congrArg Prod.fst hBE
    have hA : (b0 * 256 + b1) % 256 = b1 := by omega
    have hB : (b0 * 256 + b1) % 65536 / 256 = b0 := by omega
    rw [e1, e2, swapU16, hA, hB]
  · intro v hv
    have h1 : v % 65536 = v := Nat.mod_eq_of_lt hv
    rw [swapU16, swapU16, h1]
    have h2 : (v % 256 * 256 + v / 256) % 65536 = v % 256 * 256 + v / 256 := by omega
    rw [h2]
    have h3 : (v % 256 * 256 + v / 256) % 256 = v / 256 := by omega
    have h4 : (v % 256 * 256 + v / 256) / 256 = v % 256 := by omega
    rw [h3, h4]
    omega

/-- C5: `WriteRegS16BE` splits a signed value's two's-complement bit
pattern into high byte then low byte on the wire, and feeding those
same two bytes through `ReadRegS16BE` reconstructs the value
exactly. -/
theorem writeRegS16BE_read_roundtrip (v : Int) (reg : Nat)
    (h1 : -32768 ≤ v) (h2 : v < 32768) :
    WriteRegS16BE ⟨Except.ok 3, [], none⟩ reg (toPat16 v)
      = (none, [Ev.wr [reg % 256, toPat16 v / 256, toPat16 v % 256]]) ∧
    toS16 ((ReadRegS16BE ⟨Except.ok 1,
        [toPat16 v / 256, toPat16 v % 256], none⟩ reg).1.1) = v := by
  constructor
  · simp [WriteRegS16BE, WriteBytes, toPat16]
    omega
  · simp [ReadRegS16BE, WriteBytes, ReadBytes, fillBuf, toS16, toPat16]
    split <;> omega

/-- C6: single-shot register writes issue exactly one raw write whose
bytes concatenate register and value: `WriteRegU8(reg, v)` puts
`[reg, v]` on the wire and `WriteRegU16BE(reg, w)` puts
`[reg, highByte w, lowByte w]`; concretely `WriteRegU8(0x1, 0xF3)`
emits `[0x01, 0xF3]`, and on mock wire bytes `[0x01, 0x02]`
`ReadRegU16BE` returns `0x0102` while `ReadRegU16LE` returns
`0x0201`. -/
theorem single_shot_writes_concat_reg_value (reg v w k : Nat) (d : List Nat)
    (rerr : Option GoError) (hreg : reg < 256) (hv : v < 256) (hw : w < 65536) :
    WriteRegU8 ⟨Except.ok k, d, rerr⟩ reg v = (none, [Ev.wr [reg, v]]) ∧
    WriteRegU16BE ⟨Except.ok k, d, rerr⟩ reg w
      = (none, [Ev.wr [reg, w / 256, w % 256]]) ∧
    WriteRegU8 ⟨Except.ok 2, [], none⟩ 0x1 0xF3 = (none, [Ev.wr [0x01, 0xF3]]) ∧
    (ReadRegU16BE ⟨Except.ok 1, [0x01, 0x02], none⟩ 0x10).1 = (0x0102, none) ∧
    (ReadRegU16LE ⟨Except.ok 1, [0x01, 0x02], none⟩ 0x10).1 = (0x0201, none) := by
  refine ⟨?_, ?_, by decide, by decide, by decide⟩
  · simp [WriteRegU8, WriteBytes]
    omega
  · simp [WriteRegU16BE, WriteBytes]
    omega

/-- C7: `NewI2C` derives the device node path as `"/dev/i2c-" ++ bus`,
opens it read+write with permission bits 0600, then issues the binding
ioctl exactly once with code `I2C_SLAVE` and the given address; an
open failure or an ioctl rejection is returned as the error, a
successful run yields the bound connection.  Concretely,
`NewI2C(0x27, 2)` opens `"/dev/i2c-2"` and binds with
`ioctl(fd, 0x0703, 0x27)`. -/
theorem newI2C_path_and_single_ioctl (addr bus fd : Nat) (e e2 : GoError)
    (ierr : Option GoError) :
    NewI2C ⟨Except.error e, ierr⟩ addr bus
      = ((none, some e), [OsEv.openEv ("/dev/i2c-" ++ toString bus) true 384]) ∧
    NewI2C ⟨Except.ok fd, some e2⟩ addr bus
      = ((none, some e2), [OsEv.openEv ("/dev/i2c-" ++ toString bus) true 384,
          OsEv.ioctlEv fd I2C_SLAVE addr]) ∧
    NewI2C ⟨Except.ok fd, none⟩ addr bus
      = ((some ⟨addr, bus, fd⟩, none),
          [OsEv.openEv ("/dev/i2c-" ++ toString bus) true 384,
           OsEv.ioctlEv fd I2C_SLAVE addr]) ∧
    (NewI2C ⟨Except.ok 5, none⟩ 0x27 2).2
      = [OsEv.openEv "/dev/i2c-2" true 384, OsEv.ioctlEv 5 0x0703 0x27] := by
  refine ⟨rfl, rfl, rfl, ?_⟩
  decide

/-- Helper for the frame property: no library call assigns any field
of the connection record, so each one maps the record to itself. -/
theorem applyOp_preserves_conn (c : I2C) (d : Device) (op : Op) :
    applyOp c d op = c := by
  cases op <;> rfl

/-- Helper: running any session leaves the connection record as it
was built by `NewI2C`. -/
theorem runOps_preserves_conn (script : List (Device × Op)) (c : I2C) :
    runOps c script = c := by
  induction script generalizing c with
  | nil => rfl
  | cons hd tl ih =>
    obtain ⟨d, op⟩ := hd
    rw [runOps, applyOp_preserves_conn]
    exact ih c

/-- C8: the identity fields set by the open operation never change: a
connection built by a successful `NewI2C addr bus` still answers
`GetAddr = addr` and `GetBus = bus` after any sequence of raw and
register operations. -/
theorem identity_fields_never_mutated (addr bus fd : Nat)
    (script : List (Device × Op)) :
    (NewI2C ⟨Except.ok fd, none⟩ addr bus).1.1 = some ⟨addr, bus, fd⟩ ∧
    GetAddr (runOps ⟨addr, bus, fd⟩ script) = addr ∧
    GetBus (runOps ⟨addr, bus, fd⟩ script) = bus := by
  refine ⟨rfl, ?_, ?_⟩ <;> rw [runOps_preserves_conn] <;> rfl

/-- C9: the typed reads never check the count the raw read reports.
On a successful short read (fewer device bytes than requested,
including none) `ReadRegBytes` still returns a slice of length exactly
`n` — device bytes in the prefix, zeros in the unread tail — with the
actual count reported separately and no error; `ReadRegU8` and
`ReadRegU16BE` likewise return values composed from the
zero-initialised buffer without error. -/
theorem short_reads_not_validated (k reg n b : Nat) (d : List Nat)
    (hd : d.length ≤ n) (hb : b < 256) :
    ReadRegBytes ⟨Except.ok k, d, none⟩ reg n
      = ((some (d.map (· % 256) ++ List.replicate (n - d.length) 0), d.length, none),
         [Ev.wr [reg % 256], Ev.rd n]) ∧
    (d.map (· % 256) ++ List.replicate (n - d.length) 0).length = n ∧
    ReadRegU8 ⟨Except.ok k, [], none⟩ reg
      = ((0, none), [Ev.wr [reg % 256], Ev.rd 1]) ∧
    ReadRegU16BE ⟨Except.ok k, [], none⟩ reg
      = ((0, none), [Ev.wr [reg % 256], Ev.rd 2]) ∧
    ReadRegU16BE ⟨Except.ok k, [b], none⟩ reg
      = ((b * 256, none), [Ev.wr [reg % 256], Ev.rd 2]) := by
  refine ⟨?_, ?_, ?_, ?_, ?_⟩
  · simp [ReadRegBytes, WriteBytes, ReadBytes, fillBuf]
    omega
  · simp
    omega
  · simp [ReadRegU8, WriteBytes, ReadBytes, fillBuf]
  · simp [ReadRegU16BE, WriteBytes, ReadBytes, fillBuf]
  · simp [ReadRegU16BE, WriteBytes, ReadBytes, fillBuf]
    omega

/-- C10: `NewI2C` performs no validation of the peripheral address:
every 8-bit value — also those above 127 — is forwarded verbatim as
the ioctl argument, and the only way an address is rejected is the
ioctl response itself: with a compliant ioctl the open succeeds, with
a rejecting ioctl its error is returned. -/
theorem newI2C_forwards_addr_unchecked (addr bus fd : Nat) (e : GoError)
    (haddr : addr < 256) :
    NewI2C ⟨Except.ok fd, none⟩ addr bus
      = ((some ⟨addr, bus, fd⟩, none),
         [OsEv.openEv ("/dev/i2c-" ++ toString bus) true 384,
          OsEv.ioctlEv fd I2C_SLAVE addr]) ∧
    NewI2C ⟨Except.ok fd, some e⟩ addr bus
      = ((none, some e),
         [OsEv.openEv ("/dev/i2c-" ++ toString bus) true 384,
          OsEv.ioctlEv fd I2C_SLAVE addr]) := by
  exact ⟨rfl, rfl⟩

/-! ### Concrete witnesses for the theorems with hypotheses -/

/-- Witness: C3 at register 0x10 and wire bytes `[0x01, 0x02]`. -/
theorem readRegU16LE_is_byteswap_of_BE_witness :
    (ReadRegU16BE ⟨Except.ok 1, [1, 2], none⟩ 16).1 = (1 * 256 + 2, none) ∧
    (ReadRegU16LE ⟨Except.ok 1, [1, 2], none⟩ 16).1 = (2 * 256 + 1, none) ∧
    (ReadRegU16LE ⟨Except.ok 1, [1, 2], none⟩ 16).1.1
      = swapU16 ((ReadRegU16BE ⟨Except.ok 1, [1, 2], none⟩ 16).1.1) ∧
    (∀ v : Nat, v < 65536 → swapU16 (swapU16 v) = v) :=
  readRegU16LE_is_byteswap_of_BE 16 1 2 (by decide) (by decide)

/-- Witness: C5 round trip at value `-1234` and register 7. -/
theorem writeRegS16BE_read_roundtrip_witness :
    WriteRegS16BE ⟨Except.ok 3, [], none⟩ 7 (toPat16 (-1234))
      = (none, [Ev.wr [7 % 256, toPat16 (-1234) / 256, toPat16 (-1234) % 256]]) ∧
    toS16 ((ReadRegS16BE ⟨Except.ok 1,
        [toPat16 (-1234) / 256, toPat16 (-1234) % 256], none⟩ 7).1.1) = -1234 :=
  writeRegS16BE_read_roundtrip (-1234) 7 (by decide) (by decide)

/-- Witness: C6 at register 0x1, byte 0xF3 and word 0x0102. -/
theorem single_shot_writes_concat_reg_value_witness :
    WriteRegU8 ⟨Except.ok 2, [], none⟩ 1 0xF3 = (none, [Ev.wr [1, 0xF3]]) ∧
    WriteRegU16BE ⟨Except.ok 2, [], none⟩ 1 0x0102
      = (none, [Ev.wr [1, 0x0102 / 256, 0x0102 % 256]]) ∧
    WriteRegU8 ⟨Except.ok 2, [], none⟩ 0x1 0xF3 = (none, [Ev.wr [0x01, 0xF3]]) ∧
    (ReadRegU16BE ⟨Except.ok 1, [0x01, 0x02], none⟩ 0x10).1 = (0x0102, none) ∧
    (ReadRegU16LE ⟨Except.ok 1, [0x01, 0x02], none⟩ 0x10).1 = (0x0201, none) :=
  single_shot_writes_concat_reg_value 1 0xF3 0x0102 2 [] none
    (by decide) (by decide) (by decide)

/-- Witness: C9 with a device answering 1 byte to a 3-byte request
(and 0 or 1 bytes to the fixed-width reads). -/
theorem short_reads_not_validated_witness :
    ReadRegBytes ⟨Except.ok 1, [9], none⟩ 0 3
      = ((some ([9].map (· % 256) ++ List.replicate (3 - [9].length) 0),
          [9].length, none), [Ev.wr [0 % 256], Ev.rd 3]) ∧
    ([9].map (· % 256) ++ List.replicate (3 - [9].length) 0).length = 3 ∧
    ReadRegU8 ⟨Except.ok 1, [], none⟩ 0 = ((0, none), [Ev.wr [0 % 256], Ev.rd 1]) ∧
    ReadRegU16BE ⟨Except.ok 1, [], none⟩ 0
      = ((0, none), [Ev.wr [0 % 256], Ev.rd 2]) ∧
    ReadRegU16BE ⟨Except.ok 1, [5], none⟩ 0
      = ((5 * 256, none), [Ev.wr [0 % 256], Ev.rd 2]) :=
  short_reads_not_validated 1 0 3 5 [9] (by decide) (by decide)

/-- Witness: C10 at address 200, outside the 7-bit range. -/
theorem newI2C_forwards_addr_unchecked_witness :
    NewI2C ⟨Except.ok 3, none⟩ 200 1
      = ((some ⟨200, 1, 3⟩, none),
         [OsEv.openEv ("/dev/i2c-" ++ toString 1) true 384,
          OsEv.ioctlEv 3 I2C_SLAVE 200]) ∧
    NewI2C ⟨Except.ok 3, some (GoError.ioError 22)⟩ 200 1
      = ((none, some (GoError.ioError 22)),
         [OsEv.openEv ("/dev/i2c-" ++ toString 1) true 384,
          OsEv.ioctlEv 3 I2C_SLAVE 200]) :=
  newI2C_forwards_addr_unchecked 200 1 3 (GoError.ioError 22) (by decide)

end GoI2C
